import Mathlib

/-!
Shallow embedding of the k-means clustering program (`kmeans.py`).

Numeric modelling: Python floats are modelled as exact rationals (`ℚ`);
`x ** 0.5` (the square root inside the Euclidean distance) is modelled as
`Real.sqrt` over the reals.  Inside the executable functions every
comparison the source makes on square-rooted values is expressed by the
provably equivalent comparison on the squared values (square root is
strictly monotone on the nonnegatives); the bridge lemmas
`moved_iff_euclid` and the tie-break theorem relate the executable
functions back to `euclidean_distance` exactly as the source writes it.

I/O modelling: the filesystem is a partial map from path to the parsed
rows of that file (`none` = unreadable or malformed), standard input is
the list of parsed rows; `read_vectors`' `float()` parsing of individual
lines and blank-line skipping happen outside this boundary.  Printing is
modelled by returning the list of printed lines.
-/

namespace Kmeans

/-- Constants from the top of `kmeans.py`. -/
def MIN_K : ℤ := 1

def MIN_ITER : ℤ := 1

def MAX_ITER : ℤ := 1000

def DEFAULT_ITER : ℤ := 400

/-- The default `eps=0.001` argument of `kmeans_clustering`. -/
def DEFAULT_EPS : ℚ := 1/1000

/-- Value of a decimal digit character. -/
def digit_val (c : Char) : ℕ := c.toNat - 48

/-- Digits to the natural number they denote, most significant first. -/
def digits_to_nat (l : List Char) : ℕ :=
  l.foldl (fun n c => 10 * n + digit_val c) 0

/-- Strip leading and trailing whitespace from a character list. -/
def strip_spaces (l : List Char) : List Char :=
  ((l.dropWhile Char.isWhitespace).reverse.dropWhile Char.isWhitespace).reverse

/-- Model of Python `int(s)` on a string: surrounding whitespace ignored,
optional sign, then one or more decimal digits; anything else (for example
`"3.0"`) raises `ValueError`, modelled as `none`. -/
def py_int (s : String) : Option ℤ :=
  match strip_spaces s.toList with
  | '-' :: rest =>
      if rest ≠ [] ∧ rest.all Char.isDigit then some (-(digits_to_nat rest : ℤ))
      else none
  | '+' :: rest =>
      if rest ≠ [] ∧ rest.all Char.isDigit then some (digits_to_nat rest : ℤ)
      else none
  | cs =>
      if cs ≠ [] ∧ cs.all Char.isDigit then some (digits_to_nat cs : ℤ)
      else none

/-- `parse_command_line_args`: returns (printed lines, parsed `(k, max_iter,
file_arg)` or `none` on error), mirroring the source line by line. -/
def parse_command_line_args (args : List String) :
    List String × Option (ℤ × ℤ × Option String) :=
  if args.length = 0 then (["An Error Has Occurred"], none)
  else
    match py_int (args.getD 0 "") with
    | none => (["An Error Has Occurred"], none)
    | some k =>
      if k ≤ MIN_K then (["Invalid number of clusters!"], none)
      else if args.length = 1 then ([], some (k, DEFAULT_ITER, none))
      else if args.length = 2 then ([], some (k, DEFAULT_ITER, some (args.getD 1 "")))
      else if args.length = 3 then
        match py_int (args.getD 1 "") with
        | none => (["An Error Has Occurred"], none)
        | some max_iter =>
          if max_iter ≤ MIN_ITER ∨ MAX_ITER ≤ max_iter then
            (["Invalid maximum iteration!"], none)
          else ([], some (k, max_iter, some (args.getD 2 "")))
      else (["An Error Has Occurred"], none)

/-- `read_vectors`: `fs` maps a path to the parsed rows of that file
(`none` models an unreadable or malformed file), `stdin` is the parsed
rows on standard input.  The source tests `if file_arg:` by truthiness,
so an empty-string path also falls through to standard input. -/
def read_vectors (fs : String → Option (List (List ℚ))) (stdin : List (List ℚ))
    (file_arg : Option String) : List String × Option (List (List ℚ)) :=
  let rows? : Option (List (List ℚ)) :=
    match file_arg with
    | some f => if f = "" then some stdin else fs f
    | none => some stdin
  match rows? with
  | none => (["An Error Has Occurred"], none)
  | some rows =>
    if rows.isEmpty then (["An Error Has Occurred"], none) else ([], some rows)

/-- `validate_vector_dimensions`: every row must have the length of the
first row; the source prints one error line and returns `False` at the
first offender, so the printed output is one line either way. -/
def validate_vector_dimensions (vectors : List (List ℚ)) : List String × Bool :=
  if vectors.isEmpty then (["An Error Has Occurred"], false)
  else
    let dim := (vectors.headD []).length
    if vectors.all (fun v => v.length = dim) then ([], true)
    else (["An Error Has Occurred"], false)

/-- `initialize_centroids` from the source: rejects `k >= len(vectors)`,
otherwise copies the first `k` vectors (Python `range(k)` of a negative
`k` is empty, hence `Int.toNat`). -/
def init_centroids (vectors : List (List ℚ)) (k : ℤ) :
    List String × Option (List (List ℚ) × ℤ) :=
  if (vectors.length : ℤ) ≤ k then (["Invalid number of clusters!"], none)
  else ([], some (vectors.take k.toNat, k))

/-- The sum of squared coordinate differences,
`sum((point[i] - centroid[i]) ** 2 for i in range(len(point)))`. -/
def sq_dist (point centroid : List ℚ) : ℚ :=
  ((List.range point.length).map
    (fun i => (point.getD i 0 - centroid.getD i 0) ^ 2)).sum

/-- `euclidean_distance` as the source computes it: the square root of
`sq_dist` (Python `(...) ** 0.5`), valued in the reals. -/
noncomputable def euclidean_distance (point centroid : List ℚ) : ℝ :=
  Real.sqrt ((sq_dist point centroid : ℚ) : ℝ)

/-- Python `min` over a nonempty list (left fold of binary min; `min` is
associative and commutative, written here as a right fold for easier
induction).  `py_min [] = 0` is an arbitrary value: Python raises there. -/
def py_min : List ℚ → ℚ
  | [] => 0
  | [a] => a
  | a :: b :: rest => min a (py_min (b :: rest))

/-- Python `list.index`: index of the first occurrence (the value returned
for an absent element is arbitrary: Python raises there). -/
def idx_of (x : ℚ) : List ℚ → ℕ
  | [] => 0
  | a :: rest => if a = x then 0 else idx_of x rest + 1

/-- `distances.index(min(distances))` for the distances from `v` to each
centroid.  The source ranks the square-rooted distances; ranking the
squared distances yields the same first-minimum index because `Real.sqrt`
is strictly monotone on the nonnegatives (see `assign_tie_break`). -/
def closest_index (v : List ℚ) (centroids : List (List ℚ)) : ℕ :=
  let distances := centroids.map (fun c => sq_dist v c)
  idx_of (py_min distances) distances

/-- `clusters[j].append(vector)`. -/
def append_at (clusters : List (List (List ℚ))) (j : ℕ) (v : List ℚ) :
    List (List (List ℚ)) :=
  clusters.set j ((clusters.getD j []) ++ [v])

/-- `assign_clusters`: start from `len(centroids)` empty buckets and append
each vector, in input order, to the bucket of its closest centroid. -/
def assign_clusters (vectors centroids : List (List ℚ)) :
    List (List (List ℚ)) :=
  vectors.foldl (fun clusters v => append_at clusters (closest_index v centroids) v)
    (List.replicate centroids.length [])

/-- The source's `euclidean_distance(old, new) > eps` test, expressed on
the squared distance: for `eps < 0` the square root (being nonnegative)
always exceeds `eps`, and for `0 ≤ eps` it exceeds `eps` iff the squared
distance exceeds `eps ^ 2`.  `moved_iff_euclid` proves the equivalence. -/
def moved (old new : List ℚ) (eps : ℚ) : Bool :=
  decide (eps < 0 ∨ eps ^ 2 < sq_dist old new)

/-- Coordinate-wise mean of a bucket: sum each coordinate over the members,
then divide by the member count, over `dim = len(clusters[j][0])`
coordinates. -/
def bucket_mean (bucket : List (List ℚ)) : List ℚ :=
  let dim := (bucket.headD []).length
  (List.range dim).map
    (fun i => (bucket.map (fun p => p.getD i 0)).sum / (bucket.length : ℚ))

/-- `update_centroids`: for each `j < len(centroids)`, a non-empty bucket
yields its coordinate-wise mean, an empty bucket a copy of the old
centroid; the `flag` starts `True` and is cleared when some non-empty
bucket's new centroid moved more than `eps` from the old one (the source
does both in one pass over `range(k)`). -/
def update_centroids (clusters : List (List (List ℚ)))
    (centroids : List (List ℚ)) (eps : ℚ) : List (List ℚ) × Bool :=
  let k := centroids.length
  let new_centroids := (List.range k).map (fun j =>
    let bucket := clusters.getD j []
    if bucket.isEmpty then centroids.getD j [] else bucket_mean bucket)
  let flag := ! ((List.range k).any (fun j =>
    let bucket := clusters.getD j []
    !bucket.isEmpty && moved (centroids.getD j []) (bucket_mean bucket) eps))
  (new_centroids, flag)

/-- Round to the nearest integer, ties to even (the rounding of Python's
`f"{x:.4f}"` on the exact value). -/
def round_half_even (x : ℚ) : ℤ :=
  let f := ⌊x⌋
  let frac := x - f
  if frac < 1/2 then f
  else if 1/2 < frac then f + 1
  else if f % 2 = 0 then f else f + 1

/-- Left-pad a string with zeros to 4 characters. -/
def pad4 (s : String) : String :=
  if s.length ≥ 4 then s
  else (String.mk (List.replicate (4 - s.length) '0')) ++ s

/-- `f"{x:.4f}"`: the value rounded to 4 digits after the decimal point. -/
def format4 (x : ℚ) : String :=
  let n := round_half_even (x * 10000)
  let a := n.natAbs
  (if n < 0 then "-" else "") ++ toString (a / 10000) ++ "." ++ pad4 (toString (a % 10000))

/-- `print_results`: one comma-joined line per centroid, in index order
(the `clusters` argument is unused by the source as well). -/
def print_results (_clusters : List (List (List ℚ)))
    (centroids : List (List ℚ)) : List String :=
  centroids.map (fun c => String.intercalate "," (c.map format4))

/-- State returned by the `while` loop of `kmeans_clustering`: the current
centroids, the last computed assignment (`none` iff the body never ran:
the source's `clusters` variable would be unbound), the number of
iterations performed, and whether the loop exited because the updater
reported convergence. -/
structure LoopState where
  centroids : List (List ℚ)
  clusters : Option (List (List (List ℚ)))
  iters : ℕ
  converged : Bool

/-- The `while not converged and curr_iter < max_iter` loop, by recursion
on the remaining iteration budget.  Each step performs one
`assign_clusters` / `update_centroids` pass (so the convergence flag is
computed exactly once per iteration). -/
def kmeans_loop (vectors : List (List ℚ)) (eps : ℚ) :
    ℕ → List (List ℚ) → Option (List (List (List ℚ))) → LoopState
  | 0, centroids, acc => ⟨centroids, acc, 0, false⟩
  | fuel + 1, centroids, _acc =>
    let cl := assign_clusters vectors centroids
    let step := update_centroids cl centroids eps
    if step.2 then ⟨step.1, some cl, 1, true⟩
    else
      let r := kmeans_loop vectors eps fuel step.1 (some cl)
      ⟨r.centroids, r.clusters, r.iters + 1, r.converged⟩

/-- `kmeans_clustering`: validate dimensions, initialize centroids, run the
loop, print the final centroids.  A loop that never ran leaves the
source's `clusters` variable unbound (a `NameError`), modelled as a `none`
result with nothing printed. -/
def kmeans_clustering (k max_iter : ℤ) (vectors : List (List ℚ)) (eps : ℚ) :
    List String × Option (List (List (List ℚ))) :=
  match validate_vector_dimensions vectors with
  | (out, false) => (out, none)
  | (_, true) =>
    match init_centroids vectors k with
    | (out2, none) => (out2, none)
    | (_, some (centroids0, _)) =>
      let r := kmeans_loop vectors eps max_iter.toNat centroids0 none
      match r.clusters with
      | none => ([], none)
      | some clusters => (print_results clusters r.centroids, some clusters)

/-- `main`: exit status (0 success, 1 any failure) and the printed lines. -/
def pymain (fs : String → Option (List (List ℚ))) (stdin : List (List ℚ))
    (args : List String) : ℕ × List String :=
  match parse_command_line_args args with
  | (out, none) => (1, out)
  | (out, some (k, max_iter, file_arg)) =>
    match read_vectors fs stdin file_arg with
    | (out2, none) => (1, out ++ out2)
    | (out2, some vectors) =>
      match kmeans_clustering k max_iter vectors DEFAULT_EPS with
      | (out3, none) => (1, out ++ out2 ++ out3)
      | (out3, some _) => (0, out ++ out2 ++ out3)

/-! ## Helper lemmas -/

theorem getD_map_of_lt {α β : Type} (f : α → β) (l : List α) (j : ℕ) (d : α) (e : β)
    (hj : j < l.length) : (l.map f).getD j e = f (l.getD j d) := by
  induction l generalizing j with
  | nil => simp at hj
  | cons a t ih =>
    cases j with
    | zero => simp
    | succ j => simpa using ih j (by simpa using hj)

theorem getD_range_map {β : Type} (f : ℕ → β) (k j : ℕ) (e : β) (hj : j < k) :
    ((List.range k).map f).getD j e = f j := by
  rw [getD_map_of_lt f (List.range k) j 0 e (by simpa using hj)]
  congr 1
  rw [List.getD_eq_getElem _ _ (by simpa using hj)]
  simp

theorem py_min_le (l : List ℚ) (x : ℚ) (hx : x ∈ l) : py_min l ≤ x := by
  induction l with
  | nil => simp at hx
  | cons a t ih =>
    cases t with
    | nil =>
      have hax : x = a := by simpa using hx
      simp [py_min, hax]
    | cons b r =>
      rcases List.mem_cons.mp hx with h | h
      · rw [h]; exact min_le_left _ _
      · exact le_trans (min_le_right _ _) (ih h)

theorem py_min_mem (l : List ℚ) (hl : l ≠ []) : py_min l ∈ l := by
  induction l with
  | nil => exact absurd rfl hl
  | cons a t ih =>
    cases t with
    | nil => simp [py_min]
    | cons b r =>
      have hmem := ih (by simp)
      rcases min_cases a (py_min (b :: r)) with ⟨h1, _⟩ | ⟨h1, _⟩
      · show min a (py_min (b :: r)) ∈ _
        rw [h1]; exact List.mem_cons_self _ _
      · show min a (py_min (b :: r)) ∈ _
        rw [h1]; exact List.mem_cons_of_mem _ hmem

theorem idx_of_lt_length (x : ℚ) (l : List ℚ) (hx : x ∈ l) : idx_of x l < l.length := by
  induction l with
  | nil => simp at hx
  | cons a t ih =>
    by_cases h : a = x
    · simp [idx_of, h]
    · have hxt : x ∈ t := by
        rcases List.mem_cons.mp hx with h' | h'
        · exact absurd h'.symm h
        · exact h'
      simp only [idx_of, if_neg h, List.length_cons]
      exact Nat.succ_lt_succ (ih hxt)

theorem getD_idx_of (x : ℚ) (l : List ℚ) (hx : x ∈ l) : l.getD (idx_of x l) 0 = x := by
  induction l with
  | nil => simp at hx
  | cons a t ih =>
    by_cases h : a = x
    · simp [idx_of, h]
    · have hxt : x ∈ t := by
        rcases List.mem_cons.mp hx with h' | h'
        · exact absurd h'.symm h
        · exact h'
      simpa [idx_of, h] using ih hxt

theorem idx_of_first (x : ℚ) (l : List ℚ) (m : ℕ) (hm : m < idx_of x l) :
    l.getD m 0 ≠ x := by
  induction l generalizing m with
  | nil => simp [idx_of] at hm
  | cons a t ih =>
    by_cases h : a = x
    · simp [idx_of, h] at hm
    · cases m with
      | zero => simpa using h
      | succ m =>
        simp only [idx_of, if_neg h] at hm
        simpa using ih m (by omega)

theorem sq_dist_nonneg (p c : List ℚ) : 0 ≤ sq_dist p c := by
  unfold sq_dist
  apply List.sum_nonneg
  intro x hx
  simp only [List.mem_map] at hx
  obtain ⟨i, _, rfl⟩ := hx
  positivity

theorem sq_dist_self (p : List ℚ) : sq_dist p p = 0 := by
  unfold sq_dist
  apply List.sum_eq_zero
  intro x hx
  simp only [List.mem_map] at hx
  obtain ⟨i, _, rfl⟩ := hx
  ring

theorem euclid_nonneg (p c : List ℚ) : 0 ≤ euclidean_distance p c :=
  Real.sqrt_nonneg _

theorem euclid_self (p : List ℚ) : euclidean_distance p p = 0 := by
  unfold euclidean_distance
  rw [sq_dist_self]
  simp

theorem euclid_le_euclid_iff (v a b : List ℚ) :
    euclidean_distance v a ≤ euclidean_distance v b ↔ sq_dist v a ≤ sq_dist v b := by
  unfold euclidean_distance
  rw [Real.sqrt_le_sqrt_iff (by exact_mod_cast sq_dist_nonneg v b)]
  exact_mod_cast Iff.rfl

theorem euclid_lt_euclid_iff (v a b : List ℚ) :
    euclidean_distance v a < euclidean_distance v b ↔ sq_dist v a < sq_dist v b := by
  unfold euclidean_distance
  rw [Real.sqrt_lt_sqrt_iff (by exact_mod_cast sq_dist_nonneg v a)]
  exact_mod_cast Iff.rfl

theorem moved_iff_euclid (a b : List ℚ) (eps : ℚ) :
    moved a b eps = true ↔ (eps : ℝ) < euclidean_distance a b := by
  unfold moved euclidean_distance
  rcases lt_or_le eps 0 with h | h
  · have hcast : (eps : ℝ) < 0 := by exact_mod_cast h
    simp only [decide_eq_true_eq]
    constructor
    · intro _
      exact lt_of_lt_of_le hcast (Real.sqrt_nonneg _)
    · intro _
      exact Or.inl h
  · have hcast : (0 : ℝ) ≤ (eps : ℝ) := by exact_mod_cast h
    rw [Real.lt_sqrt hcast]
    simp only [decide_eq_true_eq]
    constructor
    · intro hor
      rcases hor with h' | h'
      · exact absurd h' (not_lt.mpr h)
      · exact_mod_cast h'
    · intro h'
      exact Or.inr (by exact_mod_cast h')

theorem getD_mem {α : Type} (l : List α) (m : ℕ) (d : α) (hm : m < l.length) :
    l.getD m d ∈ l := by
  rw [List.getD_eq_getElem _ _ hm]
  exact List.getElem_mem hm

theorem closest_index_lt (v : List ℚ) (cs : List (List ℚ)) (h : cs ≠ []) :
    closest_index v cs < cs.length := by
  unfold closest_index
  have hne : cs.map (fun c => sq_dist v c) ≠ [] := by simpa using h
  have hlt := idx_of_lt_length _ _ (py_min_mem _ hne)
  simpa using hlt

theorem sq_dist_closest (v : List ℚ) (cs : List (List ℚ)) (h : cs ≠ []) :
    sq_dist v (cs.getD (closest_index v cs) []) =
      py_min (cs.map (fun c => sq_dist v c)) := by
  have hne : cs.map (fun c => sq_dist v c) ≠ [] := by simpa using h
  have hlen : closest_index v cs < cs.length := closest_index_lt v cs h
  rw [← getD_map_of_lt (fun c => sq_dist v c) cs _ [] 0 hlen]
  show (cs.map (fun c => sq_dist v c)).getD (closest_index v cs) 0 = _
  simp only [closest_index]
  exact getD_idx_of _ _ (py_min_mem _ hne)

theorem sq_dist_closest_le (v : List ℚ) (cs : List (List ℚ)) (h : cs ≠ [])
    (m : ℕ) (hm : m < cs.length) :
    sq_dist v (cs.getD (closest_index v cs) []) ≤ sq_dist v (cs.getD m []) := by
  rw [sq_dist_closest v cs h]
  apply py_min_le
  rw [← getD_map_of_lt (fun c => sq_dist v c) cs m [] 0 hm]
  exact getD_mem _ m 0 (by simpa using hm)

theorem sq_dist_closest_lt_of_earlier (v : List ℚ) (cs : List (List ℚ)) (h : cs ≠ [])
    (m : ℕ) (hm : m < closest_index v cs) :
    sq_dist v (cs.getD (closest_index v cs) []) < sq_dist v (cs.getD m []) := by
  have hmlen : m < cs.length := lt_trans hm (closest_index_lt v cs h)
  rcases lt_or_eq_of_le (sq_dist_closest_le v cs h m hmlen) with hlt | heq
  · exact hlt
  · exfalso
    have hne : cs.map (fun c => sq_dist v c) ≠ [] := by simpa using h
    have hfirst := idx_of_first (py_min (cs.map (fun c => sq_dist v c)))
      (cs.map (fun c => sq_dist v c)) m (by simpa [closest_index] using hm)
    apply hfirst
    rw [getD_map_of_lt (fun c => sq_dist v c) cs m [] 0 hmlen]
    rw [← heq, sq_dist_closest v cs h]

theorem append_at_length (cl : List (List (List ℚ))) (j : ℕ) (v : List ℚ) :
    (append_at cl j v).length = cl.length := by
  simp [append_at]

theorem append_at_mem {Q : List ℚ → Prop} (cl : List (List (List ℚ))) (j : ℕ)
    (v : List ℚ) (hcl : ∀ b ∈ cl, ∀ p ∈ b, Q p) (hv : Q v) :
    ∀ b ∈ append_at cl j v, ∀ p ∈ b, Q p := by
  intro b hb p hp
  rcases List.mem_or_eq_of_mem_set hb with hb' | rfl
  · exact hcl b hb' p hp
  · rcases List.mem_append.mp hp with hp' | hp'
    · by_cases hj : j < cl.length
      · exact hcl _ (getD_mem cl j [] hj) p hp'
      · rw [List.getD_eq_default _ _ (le_of_not_lt hj)] at hp'
        simp at hp'
    · have : p = v := by simpa using hp'
      rwa [this]

theorem assign_foldl_length (vectors cs : List (List ℚ)) :
    ∀ init : List (List (List ℚ)),
      (vectors.foldl (fun clusters v => append_at clusters (closest_index v cs) v)
        init).length = init.length := by
  induction vectors with
  | nil => intro init; rfl
  | cons a t ih => intro init; rw [List.foldl_cons, ih, append_at_length]

theorem assign_clusters_length (vectors cs : List (List ℚ)) :
    (assign_clusters vectors cs).length = cs.length := by
  unfold assign_clusters
  rw [assign_foldl_length]
  exact List.length_replicate _ _

theorem assign_foldl_mem {Q : List ℚ → Prop} (cs : List (List ℚ)) :
    ∀ (vs : List (List ℚ)) (init : List (List (List ℚ))),
      (∀ b ∈ init, ∀ p ∈ b, Q p) → (∀ v ∈ vs, Q v) →
      ∀ b ∈ vs.foldl (fun clusters v => append_at clusters (closest_index v cs) v) init,
        ∀ p ∈ b, Q p := by
  intro vs
  induction vs with
  | nil => intro init hinit _; exact hinit
  | cons a t ih =>
    intro init hinit hvs
    rw [List.foldl_cons]
    exact ih _ (append_at_mem init _ a hinit (hvs a (List.mem_cons_self a t)))
      (fun v hv => hvs v (List.mem_cons_of_mem a hv))

theorem assign_clusters_mem {Q : List ℚ → Prop} (vectors cs : List (List ℚ))
    (hv : ∀ v ∈ vectors, Q v) :
    ∀ b ∈ assign_clusters vectors cs, ∀ p ∈ b, Q p := by
  unfold assign_clusters
  apply assign_foldl_mem cs vectors _ _ hv
  intro b hb p hp
  rw [List.eq_of_mem_replicate hb] at hp
  simp at hp

theorem update_centroids_length (cl : List (List (List ℚ))) (cs : List (List ℚ))
    (eps : ℚ) : (update_centroids cl cs eps).1.length = cs.length := by
  simp [update_centroids]

theorem update_centroids_getD (cl : List (List (List ℚ))) (cs : List (List ℚ))
    (eps : ℚ) (j : ℕ) (hj : j < cs.length) :
    (update_centroids cl cs eps).1.getD j [] =
      if (cl.getD j []).isEmpty then cs.getD j [] else bucket_mean (cl.getD j []) := by
  unfold update_centroids
  exact getD_range_map _ _ _ _ hj

theorem update_centroids_flag_iff (cl : List (List (List ℚ))) (cs : List (List ℚ))
    (eps : ℚ) :
    (update_centroids cl cs eps).2 = false ↔
      ∃ j, j < cs.length ∧ cl.getD j [] ≠ [] ∧
        moved (cs.getD j []) (bucket_mean (cl.getD j [])) eps = true := by
  unfold update_centroids
  simp only [Bool.not_eq_false', List.any_eq_true, List.mem_range, Bool.and_eq_true,
    Bool.not_eq_true', List.isEmpty_eq_false]

theorem bucket_mean_length (bucket : List (List ℚ)) :
    (bucket_mean bucket).length = (bucket.headD []).length := by
  simp [bucket_mean]

theorem headD_mem {α : Type} (l : List α) (d : α) (h : l ≠ []) : l.headD d ∈ l := by
  cases l with
  | nil => exact absurd rfl h
  | cons a t => simp

theorem bucket_mean_length_of_members {d : ℕ} (bucket : List (List ℚ))
    (hne : bucket ≠ []) (hdim : ∀ p ∈ bucket, p.length = d) :
    (bucket_mean bucket).length = d := by
  rw [bucket_mean_length]
  exact hdim _ (headD_mem bucket [] hne)

theorem update_centroids_dims {d : ℕ} (cl : List (List (List ℚ)))
    (cs : List (List ℚ)) (eps : ℚ)
    (hcs : ∀ c ∈ cs, c.length = d)
    (hcl : ∀ b ∈ cl, ∀ p ∈ b, p.length = d) :
    ∀ c ∈ (update_centroids cl cs eps).1, c.length = d := by
  intro c hc
  unfold update_centroids at hc
  simp only [List.mem_map, List.mem_range] at hc
  obtain ⟨j, hj, rfl⟩ := hc
  by_cases hb : (cl.getD j []).isEmpty
  · simp only [hb, if_true]
    exact hcs _ (getD_mem cs j [] hj)
  · simp only [hb, if_false]
    have hne : cl.getD j [] ≠ [] := by simpa using hb
    apply bucket_mean_length_of_members _ hne
    intro p hp
    by_cases hjl : j < cl.length
    · exact hcl _ (getD_mem cl j [] hjl) p hp
    · rw [List.getD_eq_default _ _ (le_of_not_lt hjl)] at hne
      exact absurd rfl hne

theorem kmeans_loop_iters_le (vectors : List (List ℚ)) (eps : ℚ) :
    ∀ (fuel : ℕ) (cs : List (List ℚ)) (acc : Option (List (List (List ℚ)))),
      (kmeans_loop vectors eps fuel cs acc).iters ≤ fuel := by
  intro fuel
  induction fuel with
  | zero => intro cs acc; simp [kmeans_loop]
  | succ n ih =>
    intro cs acc
    by_cases h : (update_centroids (assign_clusters vectors cs) cs eps).2
    · simp [kmeans_loop, h]
    · simp only [kmeans_loop, h, if_false]
      exact Nat.succ_le_succ (ih _ _)

theorem kmeans_loop_converged_of_lt (vectors : List (List ℚ)) (eps : ℚ) :
    ∀ (fuel : ℕ) (cs : List (List ℚ)) (acc : Option (List (List (List ℚ)))),
      (kmeans_loop vectors eps fuel cs acc).iters < fuel →
      (kmeans_loop vectors eps fuel cs acc).converged = true := by
  intro fuel
  induction fuel with
  | zero => intro cs acc h; simp [kmeans_loop] at h
  | succ n ih =>
    intro cs acc h
    by_cases hc : (update_centroids (assign_clusters vectors cs) cs eps).2
    · simp [kmeans_loop, hc]
    · simp [kmeans_loop, hc] at h ⊢
      exact ih _ _ (by omega)

theorem kmeans_loop_clusters_some (vectors : List (List ℚ)) (eps : ℚ) :
    ∀ (fuel : ℕ) (cs : List (List ℚ)) (acc : Option (List (List (List ℚ)))),
      (0 < fuel ∨ acc.isSome) → (kmeans_loop vectors eps fuel cs acc).clusters.isSome := by
  intro fuel
  induction fuel with
  | zero =>
    intro cs acc h
    rcases h with h | h
    · omega
    · simpa [kmeans_loop] using h
  | succ n ih =>
    intro cs acc _
    by_cases hc : (update_centroids (assign_clusters vectors cs) cs eps).2
    · simp [kmeans_loop, hc]
    · simp only [kmeans_loop, hc, if_false]
      exact ih _ _ (Or.inr rfl)

theorem kmeans_loop_invariant {d k : ℕ} (vectors : List (List ℚ)) (eps : ℚ)
    (hv : ∀ v ∈ vectors, v.length = d) :
    ∀ (fuel : ℕ) (cs : List (List ℚ)) (acc : Option (List (List (List ℚ)))),
      cs.length = k → (∀ c ∈ cs, c.length = d) →
      (kmeans_loop vectors eps fuel cs acc).centroids.length = k ∧
      (∀ c ∈ (kmeans_loop vectors eps fuel cs acc).centroids, c.length = d) := by
  intro fuel
  induction fuel with
  | zero => intro cs acc hk hd; simpa [kmeans_loop] using ⟨hk, hd⟩
  | succ n ih =>
    intro cs acc hk hd
    have hstep1 : (update_centroids (assign_clusters vectors cs) cs eps).1.length = k := by
      rw [update_centroids_length]; exact hk
    have hstep2 : ∀ c ∈ (update_centroids (assign_clusters vectors cs) cs eps).1,
        c.length = d :=
      update_centroids_dims _ _ _ hd (assign_clusters_mem vectors cs hv)
    by_cases hc : (update_centroids (assign_clusters vectors cs) cs eps).2
    · simp only [kmeans_loop, hc, if_true]
      exact ⟨hstep1, hstep2⟩
    · simp only [kmeans_loop, hc, if_false]
      exact ih _ _ hstep1 hstep2

theorem print_results_length (cl : List (List (List ℚ))) (cs : List (List ℚ)) :
    (print_results cl cs).length = cs.length := by
  simp [print_results]

/-- With a non-empty equal-dimension vector list, validation passes with
nothing printed. -/
theorem validate_ok {d : ℕ} (vectors : List (List ℚ)) (hne : vectors ≠ [])
    (hdim : ∀ v ∈ vectors, v.length = d) :
    validate_vector_dimensions vectors = ([], true) := by
  have hall : vectors.all
      (fun v => v.length = (vectors.headD []).length) = true := by
    apply List.all_eq_true.mpr
    intro v hv
    simp only [decide_eq_true_eq]
    rw [hdim v hv, hdim _ (headD_mem vectors [] hne)]
  unfold validate_vector_dimensions
  rw [if_neg (by simpa using hne), if_pos hall]

/-- When `k` is at least the number of vectors, the engine stops at
initialization with the specific invalid-cluster-count notice. -/
theorem kmeans_clustering_invalid_k {d : ℕ} (vectors : List (List ℚ))
    (k max_iter : ℤ) (eps : ℚ) (hne : vectors ≠ [])
    (hdim : ∀ v ∈ vectors, v.length = d) (hk : (vectors.length : ℤ) ≤ k) :
    kmeans_clustering k max_iter vectors eps = (["Invalid number of clusters!"], none) := by
  have hvalid := validate_ok vectors hne hdim
  have hinit : init_centroids vectors k = (["Invalid number of clusters!"], none) := by
    unfold init_centroids
    rw [if_pos hk]
  simp only [kmeans_clustering, hvalid, hinit]

/-- If the loop has any budget it performs at least one iteration. -/
theorem kmeans_loop_iters_pos (vectors : List (List ℚ)) (eps : ℚ) (fuel : ℕ)
    (cs : List (List ℚ)) (acc : Option (List (List (List ℚ)))) (hf : 0 < fuel) :
    0 < (kmeans_loop vectors eps fuel cs acc).iters := by
  cases fuel with
  | zero => omega
  | succ n =>
    by_cases hc : (update_centroids (assign_clusters vectors cs) cs eps).2
    · simp [kmeans_loop, hc]
    · simp [kmeans_loop, hc]

/-- For valid input, `kmeans_clustering` succeeds: it reaches the loop, runs
it at least once, and prints exactly the final centroids. -/
theorem kmeans_clustering_spec {d : ℕ} (vectors : List (List ℚ)) (k max_iter : ℤ)
    (eps : ℚ) (hne : vectors ≠ []) (hdim : ∀ v ∈ vectors, v.length = d)
    (hk : k < (vectors.length : ℤ)) (hmi : 1 ≤ max_iter) :
    ∃ cl fc, kmeans_clustering k max_iter vectors eps = (print_results cl fc, some cl) ∧
      fc.length = k.toNat ∧ (∀ c ∈ fc, c.length = d) := by
  have hvalid : validate_vector_dimensions vectors = ([], true) :=
    validate_ok vectors hne hdim
  have hinit : init_centroids vectors k = ([], some (vectors.take k.toNat, k)) := by
    unfold init_centroids
    rw [if_neg (not_le.mpr hk)]
  have htake_len : (vectors.take k.toNat).length = k.toNat := by
    rw [List.length_take]
    have : k.toNat ≤ vectors.length := by omega
    omega
  have htake_dim : ∀ c ∈ vectors.take k.toNat, c.length = d := by
    intro c hc
    exact hdim c (List.take_subset _ _ hc)
  have hfuel : 0 < max_iter.toNat := by omega
  have hsome := kmeans_loop_clusters_some vectors eps max_iter.toNat
    (vectors.take k.toNat) none (Or.inl hfuel)
  obtain ⟨cl, hcl⟩ := Option.isSome_iff_exists.mp hsome
  have hinv := kmeans_loop_invariant vectors eps hdim max_iter.toNat
    (vectors.take k.toNat) none htake_len htake_dim
  refine ⟨cl, (kmeans_loop vectors eps max_iter.toNat (vectors.take k.toNat) none).centroids,
    ?_, hinv.1, hinv.2⟩
  simp only [kmeans_clustering, hvalid, hinit, hcl]

/-! ## Claim theorems -/

/-- C3: for every vector and every non-empty centroid sequence, the bucket
index chosen by the assigner is in range, its centroid's Euclidean distance
to the vector is minimal over all centroids, and every centroid at a
smaller index is strictly farther away — so among equidistant minima the
smallest index wins; moreover `assign_clusters` puts the vector into
exactly that bucket. -/
theorem assign_tie_break (v : List ℚ) (centroids : List (List ℚ))
    (h : centroids ≠ []) :
    closest_index v centroids < centroids.length ∧
    (∀ m, m < centroids.length →
      euclidean_distance v (centroids.getD (closest_index v centroids) []) ≤
        euclidean_distance v (centroids.getD m [])) ∧
    (∀ m, m < closest_index v centroids →
      euclidean_distance v (centroids.getD (closest_index v centroids) []) <
        euclidean_distance v (centroids.getD m [])) ∧
    (assign_clusters [v] centroids).getD (closest_index v centroids) [] = [v] := by
  have ha : closest_index v centroids < centroids.length := closest_index_lt v centroids h
  refine ⟨ha, ?_, ?_, ?_⟩
  · intro m hm
    rw [euclid_le_euclid_iff]
    exact sq_dist_closest_le v centroids h m hm
  · intro m hm
    rw [euclid_lt_euclid_iff]
    exact sq_dist_closest_lt_of_earlier v centroids h m hm
  · unfold assign_clusters
    rw [List.foldl_cons, List.foldl_nil]
    unfold append_at
    have hlt : closest_index v centroids <
        (List.replicate centroids.length ([] : List (List ℚ))).length := by
      simpa using ha
    rw [List.getD_eq_getElem _ _ (by simpa using hlt)]
    rw [List.getElem_set_self]
    rw [List.getD_eq_getElem _ _ hlt]
    simp

/-- C3 witness at a concrete tie: the vector `[0, 0]` is at distance 1 from
both centroids, and the assigner picks index 0. -/
theorem assign_tie_break_witness :
    ([[1, 0], [0, 1]] : List (List ℚ)) ≠ [] ∧
    (closest_index [0, 0] [[1, 0], [0, 1]] < 2 ∧
    (∀ m, m < 2 →
      euclidean_distance [0, 0] (([[1, 0], [0, 1]] : List (List ℚ)).getD
        (closest_index [0, 0] [[1, 0], [0, 1]]) []) ≤
        euclidean_distance [0, 0] (([[1, 0], [0, 1]] : List (List ℚ)).getD m [])) ∧
    (∀ m, m < closest_index [0, 0] [[1, 0], [0, 1]] →
      euclidean_distance [0, 0] (([[1, 0], [0, 1]] : List (List ℚ)).getD
        (closest_index [0, 0] [[1, 0], [0, 1]]) []) <
        euclidean_distance [0, 0] (([[1, 0], [0, 1]] : List (List ℚ)).getD m [])) ∧
    (assign_clusters [[0, 0]] [[1, 0], [0, 1]]).getD
      (closest_index [0, 0] [[1, 0], [0, 1]]) [] = [[0, 0]]) :=
  ⟨by decide, assign_tie_break [0, 0] [[1, 0], [0, 1]] (by decide)⟩

/-- C4: in an update step, a cluster index with a non-empty bucket gets the
coordinate-wise arithmetic mean of the bucket (sum of each coordinate over
the members, divided by the member count), and a cluster index with an
empty bucket keeps the previous centroid unchanged. -/
theorem update_mean_or_copy (clusters : List (List (List ℚ)))
    (centroids : List (List ℚ)) (eps : ℚ) (j d : ℕ)
    (hj : j < centroids.length)
    (hdim : ∀ p ∈ clusters.getD j [], p.length = d) :
    (clusters.getD j [] = [] →
      (update_centroids clusters centroids eps).1.getD j [] = centroids.getD j []) ∧
    (clusters.getD j [] ≠ [] →
      ((update_centroids clusters centroids eps).1.getD j []).length = d ∧
      ∀ i, i < d →
        ((update_centroids clusters centroids eps).1.getD j []).getD i 0 =
          ((clusters.getD j []).map (fun p => p.getD i 0)).sum /
            ((clusters.getD j []).length : ℚ)) := by
  constructor
  · intro hempty
    rw [update_centroids_getD _ _ _ _ hj, hempty]
    simp
  · intro hne
    rw [update_centroids_getD _ _ _ _ hj, if_neg (by simpa using hne)]
    refine ⟨bucket_mean_length_of_members _ hne hdim, ?_⟩
    intro i hi
    unfold bucket_mean
    rw [getD_range_map]
    rw [hdim _ (headD_mem _ [] hne)]
    exact hi

/-- C4 witness: a non-empty bucket at index 0 and an empty bucket handled by
the same update step. -/
theorem update_mean_or_copy_witness :
    0 < ([[5, 5], [7, 7]] : List (List ℚ)).length ∧
    (∀ p ∈ ([[[1, 0], [3, 0]], []] : List (List (List ℚ))).getD 0 [], p.length = 2) ∧
    ((([[[1, 0], [3, 0]], []] : List (List (List ℚ))).getD 0 [] = [] →
      (update_centroids [[[1, 0], [3, 0]], []] [[5, 5], [7, 7]] 0).1.getD 0 [] =
        ([[5, 5], [7, 7]] : List (List ℚ)).getD 0 []) ∧
    (([[[1, 0], [3, 0]], []] : List (List (List ℚ))).getD 0 [] ≠ [] →
      ((update_centroids [[[1, 0], [3, 0]], []] [[5, 5], [7, 7]] 0).1.getD 0 []).length = 2 ∧
      ∀ i, i < 2 →
        ((update_centroids [[[1, 0], [3, 0]], []] [[5, 5], [7, 7]] 0).1.getD 0 []).getD i 0 =
          ((([[[1, 0], [3, 0]], []] : List (List (List ℚ))).getD 0 []).map
            (fun p => p.getD i 0)).sum /
            ((([[[1, 0], [3, 0]], []] : List (List (List ℚ))).getD 0 []).length : ℚ))) :=
  ⟨by decide, by decide,
    update_mean_or_copy [[[1, 0], [3, 0]], []] [[5, 5], [7, 7]] 0 0 2 (by decide) (by decide)⟩

/-- C5: the update step's converged flag is `false` exactly when some
cluster index moved strictly more than `eps` in Euclidean distance (a
movement exactly equal to `eps` still counts as converged), and the default
epsilon of the engine is 0.001. -/
theorem update_convergence_flag (clusters : List (List (List ℚ)))
    (centroids : List (List ℚ)) (eps : ℚ) (heps : 0 ≤ eps) :
    ((update_centroids clusters centroids eps).2 = false ↔
      ∃ j, j < centroids.length ∧
        (eps : ℝ) < euclidean_distance (centroids.getD j [])
          ((update_centroids clusters centroids eps).1.getD j [])) ∧
    DEFAULT_EPS = 1/1000 := by
  refine ⟨?_, rfl⟩
  rw [update_centroids_flag_iff]
  constructor
  · rintro ⟨j, hj, hne, hmov⟩
    refine ⟨j, hj, ?_⟩
    rw [update_centroids_getD _ _ _ _ hj, if_neg (by simpa using hne)]
    exact (moved_iff_euclid _ _ _).mp hmov
  · rintro ⟨j, hj, hdist⟩
    by_cases hne : clusters.getD j [] = []
    · exfalso
      rw [update_centroids_getD _ _ _ _ hj, if_pos (by rw [hne]; rfl)] at hdist
      rw [euclid_self] at hdist
      have hcast : (0 : ℝ) ≤ (eps : ℝ) := by exact_mod_cast heps
      linarith
    · refine ⟨j, hj, hne, ?_⟩
      rw [update_centroids_getD _ _ _ _ hj, if_neg (by simpa using hne)] at hdist
      exact (moved_iff_euclid _ _ _).mpr hdist

/-- C5 witness at `eps = 0` with one non-empty bucket. -/
theorem update_convergence_flag_witness :
    (0 : ℚ) ≤ 0 ∧
    (((update_centroids [[[1]]] [[2]] 0).2 = false ↔
      ∃ j, j < ([[2]] : List (List ℚ)).length ∧
        ((0 : ℚ) : ℝ) < euclidean_distance (([[2]] : List (List ℚ)).getD j [])
          ((update_centroids [[[1]]] [[2]] 0).1.getD j [])) ∧
    DEFAULT_EPS = 1/1000) :=
  ⟨le_refl 0, update_convergence_flag [[[1]]] [[2]] 0 (le_refl 0)⟩

/-- C7: on valid input the run prints exactly `k` centroid lines and every
final centroid has the input dimension `d`; moreover a single
assign/update iteration preserves the invariant: `k` buckets, `k` new
centroids, all of dimension `d`. -/
theorem output_invariants {d : ℕ} (vectors : List (List ℚ)) (k max_iter : ℤ)
    (eps : ℚ) (hne : vectors ≠ []) (hdim : ∀ v ∈ vectors, v.length = d)
    (_hk1 : 1 < k) (hk2 : k < (vectors.length : ℤ))
    (hmi1 : 1 < max_iter) (_hmi2 : max_iter < 1000) :
    (∃ cl fc, kmeans_clustering k max_iter vectors eps = (print_results cl fc, some cl) ∧
      (print_results cl fc).length = k.toNat ∧
      fc.length = k.toNat ∧ (∀ c ∈ fc, c.length = d)) ∧
    (∀ cs : List (List ℚ), cs.length = k.toNat → (∀ c ∈ cs, c.length = d) →
      (assign_clusters vectors cs).length = k.toNat ∧
      (update_centroids (assign_clusters vectors cs) cs eps).1.length = k.toNat ∧
      (∀ c ∈ (update_centroids (assign_clusters vectors cs) cs eps).1, c.length = d)) := by
  constructor
  · obtain ⟨cl, fc, heq, hlen, hdims⟩ :=
      kmeans_clustering_spec vectors k max_iter eps hne hdim hk2 (by omega)
    refine ⟨cl, fc, heq, ?_, hlen, hdims⟩
    rw [print_results_length]
    exact hlen
  · intro cs hcs hcsd
    refine ⟨?_, ?_, ?_⟩
    · rw [assign_clusters_length]; exact hcs
    · rw [update_centroids_length]; exact hcs
    · exact update_centroids_dims _ _ _ hcsd (assign_clusters_mem vectors cs hdim)

/-- C7 witness on the four one-dimensional vectors with `k = 2`. -/
theorem output_invariants_witness :
    ([[1], [2], [3], [4]] : List (List ℚ)) ≠ [] ∧
    ((∃ cl fc, kmeans_clustering 2 5 [[1], [2], [3], [4]] (1/1000) =
        (print_results cl fc, some cl) ∧
      (print_results cl fc).length = (2 : ℤ).toNat ∧
      fc.length = (2 : ℤ).toNat ∧ (∀ c ∈ fc, c.length = 1)) ∧
    (∀ cs : List (List ℚ), cs.length = (2 : ℤ).toNat → (∀ c ∈ cs, c.length = 1) →
      (assign_clusters [[1], [2], [3], [4]] cs).length = (2 : ℤ).toNat ∧
      (update_centroids (assign_clusters [[1], [2], [3], [4]] cs) cs (1/1000)).1.length =
        (2 : ℤ).toNat ∧
      (∀ c ∈ (update_centroids (assign_clusters [[1], [2], [3], [4]] cs) cs (1/1000)).1,
        c.length = 1))) :=
  ⟨by decide, output_invariants [[1], [2], [3], [4]] 2 5 (1/1000) (by decide)
    (by decide) (by decide) (by decide) (by decide) (by decide)⟩

/-- C8: with the loop budget `max_iter` (at least 1), the loop performs at
most `max_iter` iterations — one assign/update pass, hence one convergence
check, per iteration — and it can stop short of the budget only because
the updater reported convergence. -/
theorem loop_iteration_bound (vectors : List (List ℚ)) (eps : ℚ)
    (max_iter : ℤ) (cs : List (List ℚ)) (acc : Option (List (List (List ℚ))))
    (hmi : 1 ≤ max_iter) :
    ((kmeans_loop vectors eps max_iter.toNat cs acc).iters : ℤ) ≤ max_iter ∧
    ((kmeans_loop vectors eps max_iter.toNat cs acc).iters < max_iter.toNat →
      (kmeans_loop vectors eps max_iter.toNat cs acc).converged = true) := by
  constructor
  · have h := kmeans_loop_iters_le vectors eps max_iter.toNat cs acc
    omega
  · exact kmeans_loop_converged_of_lt vectors eps max_iter.toNat cs acc

/-- C8 witness at a concrete run with budget 5. -/
theorem loop_iteration_bound_witness :
    (1 : ℤ) ≤ 5 ∧
    (((kmeans_loop [[1], [2], [3], [4]] (1/1000) (5 : ℤ).toNat [[1], [2]] none).iters : ℤ) ≤ 5 ∧
    ((kmeans_loop [[1], [2], [3], [4]] (1/1000) (5 : ℤ).toNat [[1], [2]] none).iters <
        (5 : ℤ).toNat →
      (kmeans_loop [[1], [2], [3], [4]] (1/1000) (5 : ℤ).toNat [[1], [2]] none).converged =
        true)) :=
  ⟨by decide, loop_iteration_bound [[1], [2], [3], [4]] (1/1000) 5 [[1], [2]] none (by decide)⟩

/-- C9: on valid input the engine cannot fail — no validation branch fires,
the loop body runs at least once so the final cluster assignment is
defined, and the run returns it printing exactly the centroid block. -/
theorem engine_total_on_valid_input {d : ℕ} (vectors : List (List ℚ))
    (k max_iter : ℤ) (eps : ℚ)
    (hne : vectors ≠ []) (hdim : ∀ v ∈ vectors, v.length = d)
    (_hk1 : 1 < k) (hk2 : k < (vectors.length : ℤ))
    (hmi1 : 1 < max_iter) (_hmi2 : max_iter < 1000) :
    (∃ cl fc, kmeans_clustering k max_iter vectors eps = (print_results cl fc, some cl)) ∧
    0 < (kmeans_loop vectors eps max_iter.toNat (vectors.take k.toNat) none).iters := by
  constructor
  · obtain ⟨cl, fc, heq, _, _⟩ :=
      kmeans_clustering_spec vectors k max_iter eps hne hdim hk2 (by omega)
    exact ⟨cl, fc, heq⟩
  · exact kmeans_loop_iters_pos vectors eps max_iter.toNat _ none (by omega)

/-- C9 witness on the four one-dimensional vectors. -/
theorem engine_total_on_valid_input_witness :
    ([[1], [2], [3], [4]] : List (List ℚ)) ≠ [] ∧
    ((∃ cl fc, kmeans_clustering 2 5 [[1], [2], [3], [4]] (1/1000) =
      (print_results cl fc, some cl)) ∧
    0 < (kmeans_loop [[1], [2], [3], [4]] (1/1000) (5 : ℤ).toNat
      (([[1], [2], [3], [4]] : List (List ℚ)).take (2 : ℤ).toNat) none).iters) :=
  ⟨by decide, @engine_total_on_valid_input 1 [[1], [2], [3], [4]] 2 5 (1/1000) (by decide)
    (by decide) (by decide) (by decide) (by decide) (by decide)⟩

/-- C1 (code bug): the source rejects float-looking whole-number parameter
strings.  `int("3.0")` raises `ValueError`, so with `k="3.0"` and
`max_iter="42.0000"` the run prints the generic failure notice and exits
with status 1, in both the two-argument and the three-argument invocation,
although the repository tester expects this invocation to succeed. -/
theorem float_params_rejected :
    py_int "3.0" = none ∧ py_int "42.0000" = none ∧
    pymain (fun _ => some [[1, 2, 3], [4, 5, 6], [7, 8, 9], [1, 2, 3]])
      [[1, 2, 3], [4, 5, 6], [7, 8, 9], [1, 2, 3]] ["3.0", "42.0000"] =
      (1, ["An Error Has Occurred"]) ∧
    pymain (fun _ => some [[1, 2, 3], [4, 5, 6], [7, 8, 9], [1, 2, 3]])
      [[1, 2, 3], [4, 5, 6], [7, 8, 9], [1, 2, 3]] ["3.0", "42.0000", "input.txt"] =
      (1, ["An Error Has Occurred"]) :=
  ⟨by decide, by decide, by decide, by decide⟩

/-- C2 counterexample: `max_iter = 1` lies in the claimed acceptance range
`1 ≤ max_iter < 1000` but the source rejects it (`max_iter <= MIN_ITER`). -/
theorem max_iter_one_rejected :
    (1 : ℤ) ≤ 1 ∧ (1 : ℤ) < 1000 ∧
    parse_command_line_args ["3", "1", "in.txt"] =
      (["Invalid maximum iteration!"], none) :=
  ⟨le_refl 1, by decide, by decide⟩

/-- C2 (amended): a supplied integer `max_iter` is accepted exactly when
`1 < max_iter < 1000` (values outside that open range draw the
iteration-count error), and with one or two arguments `max_iter` defaults
to 400. -/
theorem max_iter_validation (a1 a2 a3 : String) (k m : ℤ)
    (hk : py_int a1 = some k) (hk1 : 1 < k) (hm : py_int a2 = some m) :
    (1 < m ∧ m < 1000 →
      parse_command_line_args [a1, a2, a3] = ([], some (k, m, some a3))) ∧
    (¬(1 < m ∧ m < 1000) →
      parse_command_line_args [a1, a2, a3] = (["Invalid maximum iteration!"], none)) ∧
    parse_command_line_args [a1] = ([], some (k, 400, none)) ∧
    parse_command_line_args [a1, a2] = ([], some (k, 400, some a2)) := by
  have hknle : ¬ k ≤ MIN_K := by simp only [MIN_K]; omega
  refine ⟨?_, ?_, ?_, ?_⟩
  · intro hcond
    have hc : ¬ (m ≤ MIN_ITER ∨ MAX_ITER ≤ m) := by
      simp only [MIN_ITER, MAX_ITER, not_or, not_le]
      omega
    simp [parse_command_line_args, hk, hm, hknle, hc]
  · intro hcond
    have hc : m ≤ MIN_ITER ∨ MAX_ITER ≤ m := by
      simp only [MIN_ITER, MAX_ITER]
      omega
    simp [parse_command_line_args, hk, hm, hknle, hc]
  · simp [parse_command_line_args, hk, hknle, DEFAULT_ITER]
  · simp [parse_command_line_args, hk, hknle, DEFAULT_ITER]

/-- C2 witness: `k="3"`, `max_iter="500"` is accepted as 500; defaults
apply in the shorter invocations. -/
theorem max_iter_validation_witness :
    py_int "3" = some 3 ∧ (1 : ℤ) < 3 ∧ py_int "500" = some 500 ∧
    (((1 : ℤ) < 500 ∧ (500 : ℤ) < 1000 →
      parse_command_line_args ["3", "500", "in.txt"] = ([], some (3, 500, some "in.txt"))) ∧
    (¬((1 : ℤ) < 500 ∧ (500 : ℤ) < 1000) →
      parse_command_line_args ["3", "500", "in.txt"] =
        (["Invalid maximum iteration!"], none)) ∧
    parse_command_line_args ["3"] = ([], some (3, 400, none)) ∧
    parse_command_line_args ["3", "500"] = ([], some (3, 400, some "500"))) :=
  ⟨by decide, by decide, by decide,
    max_iter_validation "3" "500" "in.txt" 3 500 (by decide) (by decide) (by decide)⟩

/-- C6: an unparseable `k` draws the generic failure notice; a parseable
`k ≤ 1` draws the specific invalid-cluster-count notice; a parseable
`k` at least the vector count draws the same specific notice after the
vectors are read — in each case exit status 1 and no centroid lines. -/
theorem k_validation :
    (∀ (fs : String → Option (List (List ℚ))) (stdin : List (List ℚ))
      (ks : String) (rest : List String), py_int ks = none →
        pymain fs stdin (ks :: rest) = (1, ["An Error Has Occurred"])) ∧
    (∀ (fs : String → Option (List (List ℚ))) (stdin : List (List ℚ))
      (ks : String) (rest : List String) (k : ℤ), py_int ks = some k → k ≤ 1 →
        pymain fs stdin (ks :: rest) = (1, ["Invalid number of clusters!"])) ∧
    (∀ (fs : String → Option (List (List ℚ))) (stdin : List (List ℚ))
      (ks : String) (k : ℤ) (d : ℕ), py_int ks = some k → 1 < k →
        stdin ≠ [] → (∀ v ∈ stdin, v.length = d) → (stdin.length : ℤ) ≤ k →
        pymain fs stdin [ks] = (1, ["Invalid number of clusters!"])) := by
  refine ⟨?_, ?_, ?_⟩
  · intro fs stdin ks rest hks
    simp [pymain, parse_command_line_args, hks]
  · intro fs stdin ks rest k hks hk1
    have hkle : k ≤ MIN_K := by simp only [MIN_K]; omega
    simp [pymain, parse_command_line_args, hks, hkle]
  · intro fs stdin ks k d hks hk1 hne hdim hkn
    have hknle : ¬ k ≤ MIN_K := by simp only [MIN_K]; omega
    have hkc := kmeans_clustering_invalid_k stdin k DEFAULT_ITER DEFAULT_EPS hne hdim hkn
    simp [pymain, parse_command_line_args, read_vectors, hks, hknle, hne, hkc]

/-- C6 witness: the three rejection cases at concrete inputs. -/
theorem k_validation_witness :
    py_int "3.5" = none ∧
    pymain (fun _ => none) [[1], [2]] ["3.5"] = (1, ["An Error Has Occurred"]) ∧
    pymain (fun _ => none) [[1], [2]] ["1"] = (1, ["Invalid number of clusters!"]) ∧
    pymain (fun _ => none) [[1], [2]] ["5"] = (1, ["Invalid number of clusters!"]) :=
  ⟨by decide,
    k_validation.1 (fun _ => none) [[1], [2]] "3.5" [] (by decide),
    k_validation.2.1 (fun _ => none) [[1], [2]] "1" [] 1 (by decide) (by decide),
    k_validation.2.2 (fun _ => none) [[1], [2]] "5" 5 1 (by decide) (by decide)
      (by decide) (by decide) (by decide)⟩

/-- C10: with exactly two command-line arguments the second is stored as
the input file path and `max_iter` is the default 400 — the second
argument is never parsed as an iteration count, whatever it looks like. -/
theorem two_args_second_is_file (a1 a2 : String) (k : ℤ)
    (hk : py_int a1 = some k) (hk1 : 1 < k) :
    parse_command_line_args [a1, a2] = ([], some (k, 400, some a2)) := by
  have hknle : ¬ k ≤ MIN_K := by simp only [MIN_K]; omega
  simp [parse_command_line_args, hk, hknle, DEFAULT_ITER]

/-- C10 witness: the purely numeric second argument `"500"` still lands in
the file-path slot with `max_iter = 400`. -/
theorem two_args_second_is_file_witness :
    py_int "7" = some 7 ∧ (1 : ℤ) < 7 ∧ py_int "500" = some 500 ∧
    parse_command_line_args ["7", "500"] = ([], some (7, 400, some "500")) :=
  ⟨by decide, by decide, by decide,
    two_args_second_is_file "7" "500" 7 (by decide) (by decide)⟩

end Kmeans
